import Mathlib

/-!
Shallow embedding of the pdf_proc2 invoice-processing core:
the two-tier AI extraction cascade (`app/services/ai/cascade.py`),
the extraction backend variants (`app/services/ai/interface.py`),
the company-name normalizer (`app/services/normalizer.py`),
and the text-extraction primitive (`app/services/pdf/processor.py`),
together with theorems settling the spec's testable properties.

Python floats (confidence scores) are modelled as rationals; byte strings as
`List Nat`; a Python function that may raise is modelled as `Except String`;
`None`-able parameters as `Option`. The network call made by a backend is
abstracted into a function parameter, since its outcome is external input.
-/

set_option autoImplicit false

namespace PdfProc

/-- `InvoiceMetadata` from `app/models/schemas.py`: the structured output
schema the AI must return. -/
structure InvoiceMetadata where
  company_name : String
  po_number : String
  invoice_number : String
  confidence : ℚ
  deriving DecidableEq, Repr

/-- `TierUsed` from `app/models/schemas.py`. -/
inductive TierUsed where
  | TIER_1
  | TIER_2
  deriving DecidableEq, Repr

/-- A backend call `extract_invoice_data(text=..., image_bytes=...)`:
either returns an `InvoiceMetadata` or raises (modelled as `.error msg`). -/
def BackendFn : Type :=
  Option String → Option (List Nat) → Except String InvoiceMetadata

/-- Python truthiness of an optional bytes value: `None` and `b""` are falsy
(`if not image_bytes` in `cascade.py` line 48). -/
def bytesFalsy : Option (List Nat) → Bool
  | none => true
  | some bs => bs.isEmpty

/-- `CascadeService` from `app/services/ai/cascade.py`: holds the configured
backend and the confidence threshold (default 0.85 in `__init__`). -/
structure CascadeService where
  backend : BackendFn
  confidence_threshold : ℚ

/-- The Tier-2 phase of `CascadeService.process` (`cascade.py` lines 46-66),
entered after Tier 1 either succeeded below threshold (then
`fallback = some result`, mirroring `'result' in locals()`) or raised
(then `fallback = none`). Returns the outcome together with the list of
backend invocations made in this phase (each as the `(text, image_bytes)`
argument pair). -/
def CascadeService.tier2Phase (s : CascadeService) (image_bytes : Option (List Nat))
    (fallback : Option InvoiceMetadata) :
    Except String (InvoiceMetadata × TierUsed) × List (Option String × Option (List Nat)) :=
  if bytesFalsy image_bytes then
    match fallback with
    | some result => (.ok (result, .TIER_1), [])
    | none => (.error "Extraction failed and no image available for fallback.", [])
  else
    match s.backend none image_bytes with
    | .ok vision_result => (.ok (vision_result, .TIER_2), [(none, image_bytes)])
    | .error e =>
      match fallback with
      | some result => (.ok (result, .TIER_1), [(none, image_bytes)])
      | none => (.error e, [(none, image_bytes)])

/-- `CascadeService.process` (`cascade.py` lines 20-66), instrumented to also
return the trace of backend invocations (argument pairs), so call-count
properties are statable. Tier 1 calls the backend with `text=text`; on
success with `confidence >= threshold` it returns `(result, TIER_1)`
immediately; otherwise control reaches the Tier-2 phase. -/
def CascadeService.processT (s : CascadeService) (text : String)
    (image_bytes : Option (List Nat)) :
    Except String (InvoiceMetadata × TierUsed) × List (Option String × Option (List Nat)) :=
  match s.backend (some text) none with
  | .ok result =>
    if result.confidence ≥ s.confidence_threshold then
      (.ok (result, .TIER_1), [(some text, none)])
    else
      let rest := s.tier2Phase image_bytes (some result)
      (rest.1, (some text, none) :: rest.2)
  | .error _ =>
    let rest := s.tier2Phase image_bytes none
    (rest.1, (some text, none) :: rest.2)

/-- The return value of `CascadeService.process`: the outcome without the
instrumentation trace. -/
def CascadeService.process (s : CascadeService) (text : String)
    (image_bytes : Option (List Nat)) : Except String (InvoiceMetadata × TierUsed) :=
  (s.processT text image_bytes).1

/-- `settings.MODEL_A_NAME` (`app/core/config.py` line 30): the fast/cheap
text model. -/
def MODEL_A_NAME : String := "gpt-4o-mini"

/-- `settings.MODEL_B_NAME` (`app/core/config.py` line 31): the
smart/expensive vision model. -/
def MODEL_B_NAME : String := "gpt-4o"

/-- Python truthiness of an optional string: `None` and `""` are falsy
(`if text` in `interface.py` line 35). -/
def strTruthy : Option String → Bool
  | none => false
  | some s => !(s = "")

/-- Python truthiness of optional bytes: `None` and `b""` are falsy. -/
def bytesTruthy : Option (List Nat) → Bool
  | none => false
  | some bs => !bs.isEmpty

/-- The model-selection branching of `OpenAIBackend.extract_invoice_data`
(`interface.py` lines 32-49): `if text and not image_bytes` binds
`model = MODEL_A_NAME`; `elif image_bytes` binds `model = MODEL_B_NAME`;
otherwise `model` is never bound (`none`). -/
def openAISelectModel (text : Option String) (image_bytes : Option (List Nat)) :
    Option String :=
  if strTruthy text && !bytesTruthy image_bytes then some MODEL_A_NAME
  else if bytesTruthy image_bytes then some MODEL_B_NAME
  else none

/-- `OpenAIBackend.extract_invoice_data` (`interface.py` lines 27-55).
The network call `self.client.chat.completions.create(model=model, ...)` is
abstracted as `providerCall model`, since its outcome is external input.
When neither branch bound `model`, evaluating `model=model` raises
`UnboundLocalError` before any provider call is made. -/
def openAIExtractInvoiceData (providerCall : String → Except String InvoiceMetadata)
    (text : Option String) (image_bytes : Option (List Nat)) :
    Except String InvoiceMetadata :=
  match openAISelectModel text image_bytes with
  | some model => providerCall model
  | none => .error "UnboundLocalError: local variable model referenced before assignment"

/-- `AnthropicBackend.extract_invoice_data` (`interface.py` lines 61-68):
the body is a bare `pass`, so the call raises nothing and returns Python
`None` — modelled as normal return (`.ok`) of no metadata (`none`). -/
def anthropicExtractInvoiceData (text : Option String)
    (image_bytes : Option (List Nat)) : Except String (Option InvoiceMetadata) :=
  .ok none

/-- A `CascadeService` wired to the OpenAI backend, as produced by
`get_llm_backend()` with `LLM_PROVIDER == "openai"` (`interface.py` lines
70-76) and `CascadeService.__init__`. -/
def cascadeOpenAI (providerCall : String → Except String InvoiceMetadata)
    (threshold : ℚ) : CascadeService :=
  ⟨fun t i => openAIExtractInvoiceData providerCall t i, threshold⟩

/-- Python whitespace, as recognized by `str.strip()` and the regex class
`\s` for ASCII input: space, tab, newline, carriage return, vertical tab,
form feed. -/
def isPySpace (c : Char) : Bool :=
  c = ' ' || c = '\t' || c = '\n' || c = '\x0d' || c = '\x0b' || c = '\x0c'

/-- A word character for the regex classes `\w`/`\b` on ASCII input:
alphanumeric or underscore. -/
def isWordChar (c : Char) : Bool :=
  c.isAlphanum || c = '_'

/-- Python `str.strip()` on a character list: remove leading and trailing
whitespace. -/
def pyStripList (l : List Char) : List Char :=
  ((l.dropWhile isPySpace).reverse.dropWhile isPySpace).reverse

/-- Python `str.strip()`. -/
def pyStrip (s : String) : String :=
  String.mk (pyStripList s.toList)

/-- Python `str.lower()` (ASCII case folding). -/
def pyLower (s : String) : String :=
  String.mk (s.toList.map Char.toLower)

/-- `PDFService.extract_text` (`app/services/pdf/processor.py` lines 14-25),
with the document modelled as the list of its pages' texts, or `none` when
`fitz.open`/iteration raises: each page's text is appended with `"\n"`, the
concatenation is stripped; on failure the empty string is returned. -/
def extract_text (doc : Option (List String)) : String :=
  match doc with
  | none => ""
  | some pages => pyStrip (String.join (pages.map (fun p => p ++ "\n")))

/-- The alternatives of the suffix regex
`\b(inc|corp|llc|ltd|incorporated|corporation)\b\.?`, in the pattern's
order (Python `re` tries alternatives left to right). -/
def suffixWords : List (List Char) :=
  [['i', 'n', 'c'], ['c', 'o', 'r', 'p'], ['l', 'l', 'c'], ['l', 't', 'd'],
   ['i', 'n', 'c', 'o', 'r', 'p', 'o', 'r', 'a', 't', 'e', 'd'],
   ['c', 'o', 'r', 'p', 'o', 'r', 'a', 't', 'i', 'o', 'n']]

/-- Case-insensitive literal match of `w` against the front of `cs`
(the pattern is compiled with `re.IGNORECASE`); returns the remainder. -/
def matchWordCI : List Char → List Char → Option (List Char)
  | [], cs => some cs
  | _ :: _, [] => none
  | w :: ws, c :: cs => if c.toLower = w then matchWordCI ws cs else none

/-- The `\b` after the alternation group: the next character (if any) must
not be a word character. -/
def boundaryAfter : List Char → Bool
  | [] => true
  | c :: _ => !isWordChar c

/-- Try the regex alternatives in order at the current position; an
alternative succeeds when it matches case-insensitively and is followed by a
word boundary. Returns the remainder after the matched word. -/
def tryWords : List (List Char) → List Char → Option (List Char)
  | [], _ => none
  | w :: ws, cs =>
    match matchWordCI w cs with
    | some rest => if boundaryAfter rest then some rest else tryWords ws cs
    | none => tryWords ws cs

/-- A whole regex match attempt at the current position (the leading `\b`
is checked by the caller via the previous character): on success, consume
the optional trailing `.` (`\.?`) and report whether the last consumed
character was a word character, for boundary tracking at the next
position. -/
def trySuffixMatch (cs : List Char) : Option (Bool × List Char) :=
  match tryWords suffixWords cs with
  | none => none
  | some rest =>
    match rest with
    | '.' :: rest2 => some (false, rest2)
    | _ => some (true, rest)

/-- Left-to-right scan of `re.sub` on the original string, replacing each
non-overlapping match of the suffix regex with the empty string. `prevWord`
records whether the character before the current position (in the original
string) is a word character — the leading `\b` of the pattern requires it
not to be. `fuel` bounds recursion; every step consumes at least one
character, so `fuel = length` suffices. -/
def stripSuffixesAux : Nat → Bool → List Char → List Char
  | 0, _, cs => cs
  | _ + 1, _, [] => []
  | fuel + 1, prevWord, c :: cs =>
    if prevWord then c :: stripSuffixesAux fuel (isWordChar c) cs
    else
      match trySuffixMatch (c :: cs) with
      | some (pw, rest) => stripSuffixesAux fuel pw rest
      | none => c :: stripSuffixesAux fuel (isWordChar c) cs

/-- `re.sub(r'\b(inc|corp|llc|ltd|incorporated|corporation)\b\.?', '', s,
flags=re.IGNORECASE)` (`normalizer.py` line 55). -/
def stripSuffixes (s : String) : String :=
  String.mk (stripSuffixesAux s.toList.length false s.toList)

/-- `re.sub(r'[^\w\s]', '', s)` (`normalizer.py` line 57): keep only word
characters and whitespace. -/
def removeSpecial (s : String) : String :=
  String.mk (s.toList.filter (fun c => isWordChar c || isPySpace c))

/-- The cleanup pipeline of `CompanyNormalizer.normalize` (`normalizer.py`
lines 52-57): strip, remove legal-entity suffixes, remove special
characters, strip again. -/
def cleanName (raw_name : String) : String :=
  pyStrip (removeSpecial (stripSuffixes (pyStrip raw_name)))

/-- The dictionary-lookup loop of `normalize` (`normalizer.py` lines 60-64):
first mapping whose key, lowercased, equals the search name. The mapping is
a `List (String × String)` in insertion order, mirroring a Python dict's
iteration order. -/
def lookupCI : List (String × String) → String → Option String
  | [], _ => none
  | (key, standardized) :: rest, search_name =>
    if pyLower key = search_name then some standardized
    else lookupCI rest search_name

/-- Python `str.replace(" ", "")` (`normalizer.py` line 68): remove every
space character (exactly U+0020, no other whitespace). -/
def removeSpaces (s : String) : String :=
  String.mk (s.toList.filter (fun c => !(c = ' ')))

/-- `CompanyNormalizer.normalize` (`normalizer.py` lines 44-68), with the
loaded dictionary passed explicitly (the instance state `self.mappings`):
empty input yields the sentinel; otherwise clean, look up the lowercased
cleaned name, and on no match return the cleaned name without spaces. -/
def normalize (mappings : List (String × String)) (raw_name : String) : String :=
  if raw_name = "" then "Unknown_Company"
  else
    match lookupCI mappings (pyLower (cleanName raw_name)) with
    | some standardized => standardized
    | none => removeSpaces (cleanName raw_name)

/-- Python dict assignment `self.mappings[raw_name] = standardized_name`
(`normalizer.py` line 72) on the insertion-ordered model: overwrite in
place if the key exists, else append. -/
def setKey : List (String × String) → String → String → List (String × String)
  | [], k, v => [(k, v)]
  | (k2, v2) :: rest, k, v =>
    if k2 = k then (k, v) :: rest else (k2, v2) :: setKey rest k v

/-- `CompanyNormalizer.add_mapping` followed by `_save_dictionary`
(`normalizer.py` lines 70-74), composed with `_load_dictionary` in a fresh
`CompanyNormalizer` constructed from the same store (`normalizer.py` lines
16-34): `json.dump` then `json.load` of a string-to-string dict is the
identity (keys keep insertion order), so the fresh instance's mappings are
exactly the saved ones. -/
def addMappingThenReload (mappings : List (String × String))
    (raw_name standardized_name : String) : List (String × String) :=
  setKey mappings raw_name standardized_name

end PdfProc

namespace PdfProc

/-- C1: Tier-1 success at or above the threshold returns that exact result
with tier `TIER_1` ("TextOnly"), having invoked the backend exactly once,
with the text argument only (the vision path is never invoked). The boundary
`confidence == threshold` is on the success side because the code tests
`result.confidence >= self.confidence_threshold`. -/
theorem C1_tier1_high_conf_returns_immediately
    (s : CascadeService) (text : String) (image_bytes : Option (List Nat))
    (r : InvoiceMetadata)
    (h1 : s.backend (some text) none = .ok r)
    (h2 : r.confidence ≥ s.confidence_threshold) :
    s.processT text image_bytes = (.ok (r, .TIER_1), [(some text, none)]) := by
  unfold CascadeService.processT
  rw [h1]
  simp [h2]

/-- Witness for C1 at a concrete backend with confidence 0.85 equal to the
threshold 0.85: the boundary counts as success and the trace has exactly the
one text-mode call. -/
theorem C1_witness :
    CascadeService.processT
      ⟨fun _ _ => .ok ⟨"Acme", "PO1", "INV1", (0.85 : ℚ)⟩, (0.85 : ℚ)⟩
      "some invoice text" (some [7]) =
      (.ok (⟨"Acme", "PO1", "INV1", (0.85 : ℚ)⟩, .TIER_1),
        [(some "some invoice text", none)]) :=
  C1_tier1_high_conf_returns_immediately
    ⟨fun _ _ => .ok ⟨"Acme", "PO1", "INV1", (0.85 : ℚ)⟩, (0.85 : ℚ)⟩
    "some invoice text" (some [7]) ⟨"Acme", "PO1", "INV1", (0.85 : ℚ)⟩
    rfl (le_refl _)

/-- C2: with an image supplied (non-empty bytes), Tier 1 below threshold or
raising, and the Tier-2 call succeeding, `process` returns the Tier-2 result
with tier `TIER_2` ("VisionFallback") unconditionally: the statement
quantifies over the Tier-2 result `v`, so its confidence (even 0) is never
compared against the threshold. -/
theorem C2_tier2_success_unconditional
    (s : CascadeService) (text : String) (bs : List Nat) (v : InvoiceMetadata)
    (hbs : bs ≠ [])
    (hv : s.backend none (some bs) = .ok v) :
    (∀ r : InvoiceMetadata, s.backend (some text) none = .ok r →
        r.confidence < s.confidence_threshold →
        s.process text (some bs) = .ok (v, .TIER_2)) ∧
    (∀ e : String, s.backend (some text) none = .error e →
        s.process text (some bs) = .ok (v, .TIER_2)) := by
  have hfalsy : bytesFalsy (some bs) = false := by
    simp [bytesFalsy, List.isEmpty_iff, hbs]
  constructor
  · intro r hr hlow
    unfold CascadeService.process CascadeService.processT
    rw [hr]
    simp [not_le.mpr hlow, CascadeService.tier2Phase, hfalsy, hv]
  · intro e he
    unfold CascadeService.process CascadeService.processT
    rw [he]
    simp [CascadeService.tier2Phase, hfalsy, hv]

/-- Witness for C2 at a concrete backend: Tier 1 returns confidence 0.2
(below threshold 0.85), Tier 2 returns a result with confidence 0, and the
Tier-2 result is returned with tier `TIER_2`. -/
theorem C2_witness :
    CascadeService.process
      ⟨fun t _ => if t.isSome then .ok ⟨"A", "P", "I", (0.2 : ℚ)⟩
                  else .ok ⟨"B", "Q", "J", (0 : ℚ)⟩, (0.85 : ℚ)⟩
      "txt" (some [1, 2]) = .ok (⟨"B", "Q", "J", (0 : ℚ)⟩, .TIER_2) :=
  (C2_tier2_success_unconditional
      ⟨fun t _ => if t.isSome then .ok ⟨"A", "P", "I", (0.2 : ℚ)⟩
                  else .ok ⟨"B", "Q", "J", (0 : ℚ)⟩, (0.85 : ℚ)⟩
      "txt" [1, 2] ⟨"B", "Q", "J", (0 : ℚ)⟩ (by decide) rfl).1
    ⟨"A", "P", "I", (0.2 : ℚ)⟩ rfl (by norm_num)

/-- C3: with no image supplied, a Tier-1 success below the threshold is
returned with tier `TIER_1` (not an error), while a Tier-1 exception makes
`process` fail with the ValueError "Extraction failed and no image available
for fallback." rather than return a result. -/
theorem C3_no_image_paths
    (s : CascadeService) (text : String) :
    (∀ r : InvoiceMetadata, s.backend (some text) none = .ok r →
        r.confidence < s.confidence_threshold →
        s.process text none = .ok (r, .TIER_1)) ∧
    (∀ e : String, s.backend (some text) none = .error e →
        s.process text none =
          .error "Extraction failed and no image available for fallback.") := by
  constructor
  · intro r hr hlow
    unfold CascadeService.process CascadeService.processT
    rw [hr]
    simp [not_le.mpr hlow, CascadeService.tier2Phase, bytesFalsy]
  · intro e he
    unfold CascadeService.process CascadeService.processT
    rw [he]
    simp [CascadeService.tier2Phase, bytesFalsy]

/-- Witness for C3: a backend whose Tier-1 result has confidence 0.3 yields
that result with tier `TIER_1` when no image is available. -/
theorem C3_witness :
    CascadeService.process
      ⟨fun _ _ => .ok ⟨"A", "P", "I", (0.3 : ℚ)⟩, (0.85 : ℚ)⟩ "txt" none =
      .ok (⟨"A", "P", "I", (0.3 : ℚ)⟩, .TIER_1) :=
  (C3_no_image_paths
      ⟨fun _ _ => .ok ⟨"A", "P", "I", (0.3 : ℚ)⟩, (0.85 : ℚ)⟩ "txt").1
    ⟨"A", "P", "I", (0.3 : ℚ)⟩ rfl (by norm_num)

/-- C4: with an image supplied and the Tier-2 call raising: if Tier 1 had
succeeded with low confidence, that original Tier-1 result is returned with
tier `TIER_1`; if Tier 1 had also raised, `process` fails with exactly the
Tier-2 exception (`raise e`) — no partial outcome is returned. -/
theorem C4_tier2_failure_degradation
    (s : CascadeService) (text : String) (bs : List Nat) (e2 : String)
    (hbs : bs ≠ [])
    (h2 : s.backend none (some bs) = .error e2) :
    (∀ r : InvoiceMetadata, s.backend (some text) none = .ok r →
        r.confidence < s.confidence_threshold →
        s.process text (some bs) = .ok (r, .TIER_1)) ∧
    (∀ e1 : String, s.backend (some text) none = .error e1 →
        s.process text (some bs) = .error e2) := by
  have hfalsy : bytesFalsy (some bs) = false := by
    simp [bytesFalsy, List.isEmpty_iff, hbs]
  constructor
  · intro r hr hlow
    unfold CascadeService.process CascadeService.processT
    rw [hr]
    simp [not_le.mpr hlow, CascadeService.tier2Phase, hfalsy, h2]
  · intro e1 he1
    unfold CascadeService.process CascadeService.processT
    rw [he1]
    simp [CascadeService.tier2Phase, hfalsy, h2]

/-- Witness for C4: Tier 1 succeeds with confidence 0.5, Tier 2 raises, the
original Tier-1 result is returned with tier `TIER_1`. -/
theorem C4_witness :
    CascadeService.process
      ⟨fun t _ => if t.isSome then .ok ⟨"A", "P", "I", (0.5 : ℚ)⟩
                  else .error "network down", (0.85 : ℚ)⟩
      "txt" (some [9]) = .ok (⟨"A", "P", "I", (0.5 : ℚ)⟩, .TIER_1) :=
  (C4_tier2_failure_degradation
      ⟨fun t _ => if t.isSome then .ok ⟨"A", "P", "I", (0.5 : ℚ)⟩
                  else .error "network down", (0.85 : ℚ)⟩
      "txt" [9] "network down" (by decide) rfl).1
    ⟨"A", "P", "I", (0.5 : ℚ)⟩ rfl (by norm_num)

/-- C5: the claim requires every unsupported-mode backend call — in
particular any call to the Anthropic variant — to fail with an extraction
error and never silently return `None`. The code contradicts it: the
Anthropic variant's body is a bare `pass`, so for every input it raises
nothing and returns `None`, violating its own declared return type
`InvoiceMetadata` and the interface docstring. -/
theorem C5_anthropic_returns_none_silently
    (text : Option String) (image_bytes : Option (List Nat)) :
    anthropicExtractInvoiceData text image_bytes = .ok none :=
  rfl

/-- C8: when `text` is supplied (non-empty, no image), the OpenAI backend
invokes the provider with the fast/cheap model `MODEL_A_NAME`
("gpt-4o-mini"); when an image is supplied (non-empty bytes), it invokes
the provider with the smart/expensive model `MODEL_B_NAME` ("gpt-4o"). -/
theorem C8_model_selection
    (providerCall : String → Except String InvoiceMetadata) :
    (∀ t : String, t ≠ "" →
        openAIExtractInvoiceData providerCall (some t) none =
          providerCall MODEL_A_NAME) ∧
    (∀ (text : Option String) (bs : List Nat), bs ≠ [] →
        openAIExtractInvoiceData providerCall text (some bs) =
          providerCall MODEL_B_NAME) := by
  constructor
  · intro t ht
    unfold openAIExtractInvoiceData openAISelectModel
    simp [strTruthy, bytesTruthy, ht]
  · intro text bs hbs
    unfold openAIExtractInvoiceData openAISelectModel
    have : bs.isEmpty = false := by simp [List.isEmpty_iff, hbs]
    simp [strTruthy, bytesTruthy, this]

/-- Witness for C8: with text "hello" and no image the provider is called
with "gpt-4o-mini"; with an image the provider is called with "gpt-4o"
(provider modelled as echoing the model name into the company field). -/
theorem C8_witness :
    openAIExtractInvoiceData (fun m => .ok ⟨m, "", "", (1 : ℚ)⟩)
        (some "hello") none = .ok ⟨"gpt-4o-mini", "", "", (1 : ℚ)⟩ ∧
    openAIExtractInvoiceData (fun m => .ok ⟨m, "", "", (1 : ℚ)⟩)
        (some "hello") (some [0]) = .ok ⟨"gpt-4o", "", "", (1 : ℚ)⟩ :=
  ⟨(C8_model_selection (fun m => .ok ⟨m, "", "", (1 : ℚ)⟩)).1 "hello" (by decide),
   (C8_model_selection (fun m => .ok ⟨m, "", "", (1 : ℚ)⟩)).2
     (some "hello") [0] (by decide)⟩

/-- C10: with empty text and no image, neither branch of the OpenAI backend
binds `model`, so the call raises (UnboundLocalError) for every provider —
it never returns a result; `PDFService.extract_text` returns `""` when the
document fails to open; consequently, in a cascade wired to the OpenAI
backend with a no-text document, Tier 1 always fails and, when an image is
available, escalation is attempted: the invocation trace is exactly the
failed text call followed by the vision call. -/
theorem C10_empty_text_tier1_fails
    (providerCall : String → Except String InvoiceMetadata)
    (threshold : ℚ) (bs : List Nat) (hbs : bs ≠ []) :
    extract_text none = "" ∧
    openAIExtractInvoiceData providerCall (some "") none =
      .error "UnboundLocalError: local variable model referenced before assignment" ∧
    ((cascadeOpenAI providerCall threshold).processT "" (some bs)).2 =
      [(some "", none), (none, some bs)] := by
  refine ⟨rfl, rfl, ?_⟩
  have hfalsy : bytesFalsy (some bs) = false := by
    simp [bytesFalsy, List.isEmpty_iff, hbs]
  unfold CascadeService.processT
  have h1 : (cascadeOpenAI providerCall threshold).backend (some "") none =
      .error "UnboundLocalError: local variable model referenced before assignment" := rfl
  rw [h1]
  unfold CascadeService.tier2Phase
  rw [hfalsy]
  simp only [Bool.false_eq_true, if_false]
  cases h2 : (cascadeOpenAI providerCall threshold).backend none (some bs) <;> simp

/-- Witness for C10 at a concrete provider, threshold 0.85 and image [3]. -/
theorem C10_witness :
    extract_text none = "" ∧
    openAIExtractInvoiceData (fun _ => .ok ⟨"A", "P", "I", (1 : ℚ)⟩)
        (some "") none =
      .error "UnboundLocalError: local variable model referenced before assignment" ∧
    ((cascadeOpenAI (fun _ => .ok ⟨"A", "P", "I", (1 : ℚ)⟩) (0.85 : ℚ)).processT
        "" (some [3])).2 = [(some "", none), (none, some [3])] :=
  C10_empty_text_tier1_fails (fun _ => .ok ⟨"A", "P", "I", (1 : ℚ)⟩)
    (0.85 : ℚ) [3] (by decide)

/-! Helper lemmas about the normalizer string pipeline. -/

theorem mk_toList (s : String) : String.mk s.toList = s := rfl

theorem dropWhile_eq_self_of_all {p : Char → Bool} {l : List Char}
    (h : ∀ c ∈ l, p c = false) : l.dropWhile p = l := by
  cases l with
  | nil => rfl
  | cons c t => simp [List.dropWhile_cons, h c (List.mem_cons_self c t)]

theorem pyStripList_eq_self {l : List Char}
    (h : ∀ c ∈ l, isPySpace c = false) : pyStripList l = l := by
  unfold pyStripList
  rw [dropWhile_eq_self_of_all h,
    dropWhile_eq_self_of_all (fun c hc => h c (List.mem_reverse.mp hc)),
    List.reverse_reverse]

theorem pyStrip_eq_self {s : String}
    (h : ∀ c ∈ s.toList, isPySpace c = false) : pyStrip s = s := by
  unfold pyStrip
  rw [pyStripList_eq_self h]
  exact mk_toList s

theorem alnum_not_pyspace {c : Char} (h : c.isAlphanum = true) :
    isPySpace c = false := by
  by_contra hc
  simp only [Bool.not_eq_false, isPySpace, Bool.or_eq_true, decide_eq_true_eq] at hc
  rcases hc with (((((rfl | rfl) | rfl) | rfl) | rfl) | rfl) <;> simp at h

theorem alnum_isWordChar {c : Char} (h : c.isAlphanum = true) :
    isWordChar c = true := by
  simp [isWordChar, h]

theorem wordChar_ne_space {c : Char} (h : isWordChar c = true) :
    ¬(c = ' ') := by
  rintro rfl
  simp [isWordChar] at h

theorem matchWordCI_decomp :
    ∀ (w cs rest : List Char), matchWordCI w cs = some rest →
      ∃ pre, cs = pre ++ rest ∧ pre.map Char.toLower = w := by
  intro w
  induction w with
  | nil =>
    intro cs rest h
    simp only [matchWordCI, Option.some.injEq] at h
    exact ⟨[], by simp [h]⟩
  | cons a w ih =>
    intro cs rest h
    cases cs with
    | nil => simp [matchWordCI] at h
    | cons c t =>
      simp only [matchWordCI] at h
      by_cases hca : c.toLower = a
      · rw [if_pos hca] at h
        obtain ⟨pre, ht, hm⟩ := ih t rest h
        exact ⟨c :: pre, by simp [ht], by simp [hm, hca]⟩
      · rw [if_neg hca] at h
        exact absurd h (by simp)

theorem tryWords_eq_none {cs : List Char}
    (hword : ∀ c ∈ cs, isWordChar c = true) :
    ∀ ws : List (List Char), (∀ w ∈ ws, cs.map Char.toLower ≠ w) →
      tryWords ws cs = none := by
  intro ws
  induction ws with
  | nil => intro _; rfl
  | cons w ws ih =>
    intro hne
    unfold tryWords
    cases hm : matchWordCI w cs with
    | none => exact ih fun x hx => hne x (List.mem_cons_of_mem _ hx)
    | some rest =>
      obtain ⟨pre, hcs, hpre⟩ := matchWordCI_decomp w cs rest hm
      cases rest with
      | nil =>
        exfalso
        apply hne w (List.mem_cons_self _ _)
        rw [hcs, List.append_nil, hpre]
      | cons r rt =>
        have hr : isWordChar r = true := hword r (by rw [hcs]; simp)
        simp only [boundaryAfter, hr, Bool.not_true, if_false]
        exact ih fun x hx => hne x (List.mem_cons_of_mem _ hx)

theorem stripSuffixesAux_word :
    ∀ (fuel : Nat) (l : List Char), (∀ c ∈ l, isWordChar c = true) →
      stripSuffixesAux fuel true l = l := by
  intro fuel
  induction fuel with
  | zero => intro l _; rfl
  | succ n ih =>
    intro l hl
    cases l with
    | nil => rfl
    | cons c t =>
      show (if true then c :: stripSuffixesAux n (isWordChar c) t
            else _) = c :: t
      rw [if_pos rfl, hl c (List.mem_cons_self c t),
        ih t fun x hx => hl x (List.mem_cons_of_mem _ hx)]

theorem stripSuffixesListAux_eq_self {l : List Char}
    (hword : ∀ c ∈ l, isWordChar c = true)
    (hne : ∀ w ∈ suffixWords, l.map Char.toLower ≠ w) :
    stripSuffixesAux l.length false l = l := by
  cases l with
  | nil => rfl
  | cons c t =>
    have hts : trySuffixMatch (c :: t) = none := by
      unfold trySuffixMatch
      rw [tryWords_eq_none hword suffixWords hne]
    show (if false then _
          else match trySuffixMatch (c :: t) with
               | some (pw, rest) => stripSuffixesAux t.length pw rest
               | none => c :: stripSuffixesAux t.length (isWordChar c) t) = c :: t
    rw [if_neg (by simp), hts]
    show c :: stripSuffixesAux t.length (isWordChar c) t = c :: t
    rw [hword c (List.mem_cons_self c t),
      stripSuffixesAux_word t.length t fun x hx => hword x (List.mem_cons_of_mem _ hx)]

theorem stripSuffixes_eq_self {s : String}
    (hword : ∀ c ∈ s.toList, isWordChar c = true)
    (hne : ∀ w ∈ suffixWords, s.toList.map Char.toLower ≠ w) :
    stripSuffixes s = s := by
  unfold stripSuffixes
  rw [stripSuffixesListAux_eq_self hword hne]
  exact mk_toList s

theorem removeSpecial_eq_self {s : String}
    (hword : ∀ c ∈ s.toList, isWordChar c = true) : removeSpecial s = s := by
  unfold removeSpecial
  rw [List.filter_eq_self.mpr fun c hc => by simp [hword c hc]]
  exact mk_toList s

theorem removeSpaces_eq_self {s : String}
    (hword : ∀ c ∈ s.toList, isWordChar c = true) : removeSpaces s = s := by
  unfold removeSpaces
  rw [List.filter_eq_self.mpr fun c hc => by
    simp [wordChar_ne_space (hword c hc)]]
  exact mk_toList s

theorem cleanName_eq_self {s : String}
    (hword : ∀ c ∈ s.toList, isWordChar c = true)
    (hspace : ∀ c ∈ s.toList, isPySpace c = false)
    (hne : ∀ w ∈ suffixWords, s.toList.map Char.toLower ≠ w) :
    cleanName s = s := by
  unfold cleanName
  rw [pyStrip_eq_self hspace, stripSuffixes_eq_self hword hne,
    removeSpecial_eq_self hword, pyStrip_eq_self hspace]

theorem lookupCI_setKey (a b : String) :
    ∀ m : List (String × String),
      (∀ p ∈ m, pyLower p.1 = pyLower a → p.1 = a) →
      lookupCI (setKey m a b) (pyLower a) = some b := by
  intro m
  induction m with
  | nil => intro _; simp [setKey, lookupCI]
  | cons p rest ih =>
    intro hm
    obtain ⟨k, v⟩ := p
    by_cases hk : k = a
    · subst hk
      simp [setKey, lookupCI]
    · have hkl : ¬(pyLower k = pyLower a) := fun hl =>
        hk (hm (k, v) (List.mem_cons_self _ _) hl)
      simp only [setKey, if_neg hk, lookupCI, hkl, if_false]
      exact ih fun q hq => hm q (List.mem_cons_of_mem _ hq)

/-- C6 counterexample: the round-trip claim fails as stated. With an empty
store, `add_mapping("Acme Inc", "HomeDepot")` persists the raw key
`"Acme Inc"`, but `normalize("Acme Inc")` on a fresh instance cleans the
input to `"Acme"` before the lookup, so the key never matches and the
cleaned fallback `"Acme"` is returned instead of `"HomeDepot"`. -/
theorem C6_cex_roundtrip_fails :
    normalize (addMappingThenReload [] "Acme Inc" "HomeDepot") "Acme Inc" =
      "Acme" ∧
    normalize (addMappingThenReload [] "Acme Inc" "HomeDepot") "Acme Inc" ≠
      "HomeDepot" := by
  constructor
  · rfl
  · decide

/-- C6 amended: `add_mapping(a, b)` followed by `normalize(a)` on a fresh
instance loaded from the same store returns `b`, provided `a` is nonempty,
the cleanup pipeline leaves `a` unchanged up to case (its lowercased cleaned
form equals its lowercased form — no legal-entity suffixes, punctuation, or
surrounding whitespace), and no pre-existing key of the store case-folds to
the same search name unless it is `a` itself. -/
theorem C6_roundtrip_amended (m : List (String × String)) (a b : String)
    (h1 : a ≠ "")
    (h2 : pyLower (cleanName a) = pyLower a)
    (h3 : ∀ p ∈ m, pyLower p.1 = pyLower a → p.1 = a) :
    normalize (addMappingThenReload m a b) a = b := by
  unfold normalize addMappingThenReload
  rw [if_neg h1, h2, lookupCI_setKey a b m h3]

/-- Witness for the amended C6: a non-empty store, a clean key `"Acme"`. -/
theorem C6_witness :
    normalize (addMappingThenReload [("Zeta", "Z")] "Acme" "ACME Holdings")
      "Acme" = "ACME Holdings" :=
  C6_roundtrip_amended [("Zeta", "Z")] "Acme" "ACME Holdings"
    (by decide) (by decide) (by decide)

/-- C7 counterexample: the claim promises all internal whitespace is removed
from a no-match result, but the code only removes space characters
(`replace(" ", "")`): a tab survives the whole pipeline, so
`normalize("a\tb")` returns `"a\tb"`, which still contains whitespace, not
`"ab"`. -/
theorem C7_cex_tab_preserved :
    normalize [] "a\tb" = "a\tb" ∧
    isPySpace '\t' = true ∧
    normalize [] "a\tb" ≠ "ab" := by
  refine ⟨rfl, rfl, ?_⟩
  decide

/-- C7 amended: empty input returns the sentinel `"Unknown_Company"`; a
nonempty input with no matching dictionary key returns the cleaned name
(suffixes stripped as whole words, remaining non-word non-whitespace
characters removed, ends stripped) with internal space characters (U+0020)
removed — other internal whitespace such as tabs is preserved; in
particular `normalize("The Home Depot, Inc.")` with no dictionary entry
returns `"TheHomeDepot"`. -/
theorem C7_cleanup_amended :
    (∀ d : List (String × String), normalize d "" = "Unknown_Company") ∧
    (∀ (d : List (String × String)) (raw : String), raw ≠ "" →
        lookupCI d (pyLower (cleanName raw)) = none →
        normalize d raw =
          String.mk ((cleanName raw).toList.filter (fun c => !(c = ' ')))) ∧
    normalize [] "The Home Depot, Inc." = "TheHomeDepot" := by
  refine ⟨fun d => rfl, fun d raw h1 h2 => ?_, rfl⟩
  unfold normalize
  rw [if_neg h1, h2]
  rfl

/-- Witness for the amended C7 at the concrete input `"Db 9"`. -/
theorem C7_witness :
    normalize [] "Db 9" =
      String.mk ((cleanName "Db 9").toList.filter (fun c => !(c = ' '))) :=
  C7_cleanup_amended.2.1 [] "Db 9" (by decide) (by decide)

/-- C9 counterexample: the idempotence claim fails as stated. `"Inc"` is an
output of `normalize` (from raw input `"I nc"`: removing the internal space
creates the legal-suffix word), is purely alphanumeric and matches no key of
the empty dictionary, yet `normalize("Inc")` strips it entirely and returns
`""`, not `"Inc"`; and `""` is in turn an output on which
`normalize("") = "Unknown_Company"` differs again. -/
theorem C9_cex_not_idempotent :
    normalize [] "I nc" = "Inc" ∧
    "Inc".toList.all Char.isAlphanum = true ∧
    lookupCI [] (pyLower (cleanName "Inc")) = none ∧
    normalize [] "Inc" = "" ∧
    normalize [] "Inc" ≠ "Inc" ∧
    normalize [] "" = "Unknown_Company" ∧
    normalize [] "" ≠ "" := by
  refine ⟨rfl, rfl, rfl, rfl, by decide, rfl, by decide⟩

/-- C9 amended: `normalize` is idempotent on nonempty, purely alphanumeric
strings with no matching dictionary key that are not themselves
(case-insensitively) one of the legal-entity suffix words: in an
all-word-character string the only word boundary is at the ends, so the
suffix regex can only match the whole string. -/
theorem C9_idempotent_amended (d : List (String × String)) (s : String)
    (h1 : s ≠ "")
    (h2 : ∀ c ∈ s.toList, c.isAlphanum = true)
    (h3 : ∀ w ∈ suffixWords, s.toList.map Char.toLower ≠ w)
    (h4 : lookupCI d (pyLower s) = none) :
    normalize d s = s := by
  have hword : ∀ c ∈ s.toList, isWordChar c = true :=
    fun c hc => alnum_isWordChar (h2 c hc)
  have hspace : ∀ c ∈ s.toList, isPySpace c = false :=
    fun c hc => alnum_not_pyspace (h2 c hc)
  have hclean : cleanName s = s := cleanName_eq_self hword hspace h3
  unfold normalize
  rw [if_neg h1, hclean, h4, removeSpaces_eq_self hword]

/-- Witness for the amended C9 at the concrete output `"TheHomeDepot"` of
the C7 example. -/
theorem C9_witness : normalize [] "TheHomeDepot" = "TheHomeDepot" :=
  C9_idempotent_amended [] "TheHomeDepot" (by decide) (by decide)
    (by decide) (by decide)

end PdfProc
